import Mathlib

/-!
Verification development for the cmgr artifact server.

The repository is a sidecar daemon mirroring a directory of gzipped tar
artifacts to a serving target.  The definitions below are a shallow
embedding of the relevant source functions:

- `src/watcher.rs`: `get_tarball_checksum`, `extract_to`, `sync_cache`,
  `is_artifact_tarball`, the bounded event channel created by `watch_dir`;
- `src/main.rs`: `get_cache_dir_checksum`, `BuildEvent`;
- `src/backend/selfhosted.rs`: `handle_request`, `SelfhostedBackend::run`;
- `src/backend/s3.rs`: the path-prefix normalization in `S3Backend::new`,
  `delete_bucket_dir`, `get_bucket_dir_checksum`, the per-build body of
  `S3Backend::synchronize`, and the event loop of `S3Backend::run`.

Rust strings are UTF-8 byte sequences; they are modelled as `List Nat`
(one element per byte).  The SHA-256 and BLAKE2b-512 hash functions used
by the source (crates `sha2` and `blake2`) are implemented concretely
from their standard definitions (FIPS 180-4 and RFC 7693).
-/

/-- Bytes of a Rust string or file: one `Nat` per byte. -/
abbrev Bytes := List Nat

/-- Byte list of an ASCII string literal (all inputs used here are ASCII,
for which the UTF-8 encoding is the codepoint sequence itself). -/
def asciiBytes (s : String) : Bytes := s.data.map Char.toNat

/-- Errors surfaced by the embedded operations.  `notFound` corresponds to
`std::io::ErrorKind::NotFound`; the numeric payloads stand for the many
distinct I/O, decoding and SDK failure causes. -/
inductive Err
  | notFound
  | io (code : Nat)
  | tar (code : Nat)
  | remote (code : Nat)
deriving DecidableEq, Repr

/-- Association-list lookup, modelling `HashMap::get`. -/
def lookupA {β : Type} (k : Bytes) : List (Bytes × β) → Option β
  | [] => none
  | (k2, v) :: rest => if k2 = k then some v else lookupA k rest

/-- Association-list insert, modelling `HashMap::insert` (replace the
binding if the key is present, otherwise add it). -/
def insertA {β : Type} (k : Bytes) (v : β) : List (Bytes × β) → List (Bytes × β)
  | [] => [(k, v)]
  | (k2, v2) :: rest => if k2 = k then (k, v) :: rest else (k2, v2) :: insertA k v rest

/-- Association-list removal, modelling `HashMap` key deletion /
`remove_dir_all` of one named entry. -/
def removeA {β : Type} (k : Bytes) (m : List (Bytes × β)) : List (Bytes × β) :=
  m.filter (fun p => decide (¬ p.1 = k))

theorem lookupA_insertA_self {β : Type} (k : Bytes) (v : β) (m : List (Bytes × β)) :
    lookupA k (insertA k v m) = some v := by
  induction m with
  | nil => simp [insertA, lookupA]
  | cons hd tl ih =>
      by_cases h : hd.1 = k
      · simp [insertA, h, lookupA]
      · simp [insertA, h, lookupA, ih]

theorem insertA_insertA_self {β : Type} (k : Bytes) (v : β) (m : List (Bytes × β)) :
    insertA k v (insertA k v m) = insertA k v m := by
  induction m with
  | nil => simp [insertA]
  | cons hd tl ih =>
      by_cases h : hd.1 = k
      · simp [insertA, h]
      · simp [insertA, h, ih]

/-! SHA-256 (FIPS 180-4), as used by `sha2::Sha256::digest` in
`is_artifact_tarball` when a digest salt is configured. -/

/-- Addition modulo 2^32. -/
def add32 (a b : Nat) : Nat := (a + b) % 4294967296

/-- Right rotation of a 32-bit word. -/
def rotr32 (x n : Nat) : Nat := (x >>> n) ||| ((x % (1 <<< n)) <<< (32 - n))

/-- SHA-256 round constants (FIPS 180-4 section 4.2.2, in decimal). -/
def sha256K : List Nat :=
  [1116352408, 1899447441, 3049323471, 3921009573, 961987163, 1508970993,
   2453635748, 2870763221, 3624381080, 310598401, 607225278, 1426881987,
   1925078388, 2162078206, 2614888103, 3248222580, 3835390401, 4022224774,
   264347078, 604807628, 770255983, 1249150122, 1555081692, 1996064986,
   2554220882, 2821834349, 2952996808, 3210313671, 3336571891, 3584528711,
   113926993, 338241895, 666307205, 773529912, 1294757372, 1396182291,
   1695183700, 1986661051, 2177026350, 2456956037, 2730485921, 2820302411,
   3259730800, 3345764771, 3516065817, 3600352804, 4094571909, 275423344,
   430227734, 506948616, 659060556, 883997877, 958139571, 1322822218,
   1537002063, 1747873779, 1955562222, 2024104815, 2227730452, 2361852424,
   2428436474, 2756734187, 3204031479, 3329325298]

/-- Working variables of the SHA-256 compression function. -/
structure Sha256State where
  a : Nat
  b : Nat
  c : Nat
  d : Nat
  e : Nat
  f : Nat
  g : Nat
  h : Nat
deriving Repr

/-- Initial SHA-256 hash value (FIPS 180-4 section 5.3.3, in decimal). -/
def sha256H0 : Sha256State :=
  ⟨1779033703, 3144134277, 1013904242, 2773480762,
   1359893119, 2600822924, 528734635, 1541459225⟩

/-- Big-endian 32-bit word from four bytes. -/
def wordBE (b0 b1 b2 b3 : Nat) : Nat := (((b0 <<< 8 ||| b1) <<< 8 ||| b2) <<< 8) ||| b3

/-- The sixteen big-endian message words of a 64-byte block. -/
def blockWordsBE : List Nat → List Nat
  | b0 :: b1 :: b2 :: b3 :: rest => wordBE b0 b1 b2 b3 :: blockWordsBE rest
  | _ => []

/-- SHA-256 message schedule: extend sixteen words to sixty-four. -/
def sha256Schedule (ws : List Nat) : List Nat :=
  (List.range 48).foldl
    (fun w i =>
      let s0 := rotr32 (w.getD (i + 1) 0) 7 ^^^ rotr32 (w.getD (i + 1) 0) 18 ^^^ (w.getD (i + 1) 0 >>> 3)
      let s1 := rotr32 (w.getD (i + 14) 0) 17 ^^^ rotr32 (w.getD (i + 14) 0) 19 ^^^ (w.getD (i + 14) 0 >>> 10)
      w ++ [add32 (add32 (w.getD i 0) s0) (add32 (w.getD (i + 9) 0) s1)])
    ws

/-- One SHA-256 round. -/
def sha256Round (w : List Nat) (s : Sha256State) (i : Nat) : Sha256State :=
  let bigS1 := rotr32 s.e 6 ^^^ rotr32 s.e 11 ^^^ rotr32 s.e 25
  let ch := (s.e &&& s.f) ^^^ ((s.e ^^^ 0xffffffff) &&& s.g)
  let t1 := add32 (add32 (add32 s.h bigS1) (add32 ch (sha256K.getD i 0))) (w.getD i 0)
  let bigS0 := rotr32 s.a 2 ^^^ rotr32 s.a 13 ^^^ rotr32 s.a 22
  let maj := (s.a &&& s.b) ^^^ (s.a &&& s.c) ^^^ (s.b &&& s.c)
  let t2 := add32 bigS0 maj
  ⟨add32 t1 t2, s.a, s.b, s.c, add32 s.d t1, s.e, s.f, s.g⟩

/-- SHA-256 compression of one 64-byte block into the running hash. -/
def sha256Compress (h : Sha256State) (block : List Nat) : Sha256State :=
  let w := sha256Schedule (blockWordsBE block)
  let s := (List.range 64).foldl (sha256Round w) h
  ⟨add32 h.a s.a, add32 h.b s.b, add32 h.c s.c, add32 h.d s.d,
   add32 h.e s.e, add32 h.f s.f, add32 h.g s.g, add32 h.h s.h⟩

/-- Split a byte list into chunks of the given positive size (fuel-driven so
that the definition reduces in the kernel). -/
def chunksAux (size : Nat) : Nat → List Nat → List (List Nat)
  | 0, _ => []
  | _, [] => []
  | fuel + 1, l => l.take size :: chunksAux size fuel (l.drop size)

/-- SHA-256 padding: append 0x80, zero bytes, then the bit length as a
big-endian 64-bit quantity, reaching a multiple of 64 bytes. -/
def sha256Pad (msg : List Nat) : List Nat :=
  let len := msg.length
  let zeros := (64 - ((len + 9) % 64)) % 64
  msg ++ [0x80] ++ List.replicate zeros 0 ++
    [(8 * len) >>> 56 % 256, (8 * len) >>> 48 % 256, (8 * len) >>> 40 % 256,
     (8 * len) >>> 32 % 256, (8 * len) >>> 24 % 256, (8 * len) >>> 16 % 256,
     (8 * len) >>> 8 % 256, (8 * len) % 256]

/-- Big-endian bytes of a 32-bit word. -/
def be4 (w : Nat) : List Nat := [w >>> 24 % 256, w >>> 16 % 256, w >>> 8 % 256, w % 256]

/-- SHA-256 digest of a byte sequence: thirty-two bytes. -/
def sha256 (msg : List Nat) : List Nat :=
  let padded := sha256Pad msg
  let s := (chunksAux 64 padded.length padded).foldl sha256Compress sha256H0
  be4 s.a ++ be4 s.b ++ be4 s.c ++ be4 s.d ++ be4 s.e ++ be4 s.f ++ be4 s.g ++ be4 s.h

/-- Lowercase hexadecimal digits as ASCII bytes. -/
def hexLowerBytes : Bytes := asciiBytes "0123456789abcdef"

/-- ASCII byte of one lowercase hexadecimal digit. -/
def hexDigitByte (n : Nat) : Nat := hexLowerBytes.getD n 48

/-- Lowercase hexadecimal rendering of a byte sequence, as ASCII bytes;
models `hex::ToHex::encode_hex`. -/
def hexOfBytes : List Nat → Bytes
  | [] => []
  | b :: rest => hexDigitByte (b / 16 % 16) :: hexDigitByte (b % 16) :: hexOfBytes rest

/-- Lowercase hexadecimal SHA-256 digest of a byte string, as ASCII bytes. -/
def sha256hexBytes (msg : Bytes) : Bytes := hexOfBytes (sha256 msg)

/-! BLAKE2b-512 (RFC 7693), as used by `blake2::Blake2b512` in
`get_tarball_checksum`. -/

/-- Addition modulo 2^64. -/
def add64 (a b : Nat) : Nat := (a + b) % 18446744073709551616

/-- Right rotation of a 64-bit word. -/
def rotr64 (x n : Nat) : Nat := (x >>> n) ||| ((x % (1 <<< n)) <<< (64 - n))

/-- BLAKE2b initialization vector. -/
def blakeIV : List Nat :=
  [0x6a09e667f3bcc908, 0xbb67ae8584caa73b, 0x3c6ef372fe94f82b, 0xa54ff53a5f1d36f1,
   0x510e527fade682d1, 0x9b05688c2b3e6c1f, 0x1f83d9abfb41bd6b, 0x5be0cd19137e2179]

/-- BLAKE2b message word permutation schedule. -/
def blakeSigma : List (List Nat) :=
  [[0, 1, 2, 3, 4, 5, 6, 7, 8, 9, 10, 11, 12, 13, 14, 15],
   [14, 10, 4, 8, 9, 15, 13, 6, 1, 12, 0, 2, 11, 7, 5, 3],
   [11, 8, 12, 0, 5, 2, 15, 13, 10, 14, 3, 6, 7, 1, 9, 4],
   [7, 9, 3, 1, 13, 12, 11, 14, 2, 6, 5, 10, 4, 0, 15, 8],
   [9, 0, 5, 7, 2, 4, 10, 15, 14, 1, 11, 12, 6, 8, 3, 13],
   [2, 12, 6, 10, 0, 11, 8, 3, 4, 13, 7, 5, 15, 14, 1, 9],
   [12, 5, 1, 15, 14, 13, 4, 10, 0, 7, 6, 3, 9, 2, 8, 11],
   [13, 11, 7, 14, 12, 1, 3, 9, 5, 0, 15, 4, 8, 6, 2, 10],
   [6, 15, 14, 9, 11, 3, 0, 8, 12, 2, 13, 7, 1, 4, 10, 5],
   [10, 2, 8, 4, 7, 6, 1, 5, 15, 11, 9, 14, 3, 12, 13, 0]]

/-- The BLAKE2b mixing function G acting on the sixteen-word work vector. -/
def blakeG (v : List Nat) (a b c d x y : Nat) : List Nat :=
  let va := add64 (add64 (v.getD a 0) (v.getD b 0)) x
  let vd := rotr64 (v.getD d 0 ^^^ va) 32
  let vc := add64 (v.getD c 0) vd
  let vb := rotr64 (v.getD b 0 ^^^ vc) 24
  let va := add64 (add64 va vb) y
  let vd := rotr64 (vd ^^^ va) 16
  let vc := add64 vc vd
  let vb := rotr64 (vb ^^^ vc) 63
  (((v.set a va).set b vb).set c vc).set d vd

/-- One round of the BLAKE2b compression function. -/
def blakeRound (m : List Nat) (v : List Nat) (r : Nat) : List Nat :=
  let s := blakeSigma.getD (r % 10) []
  let mi := fun i => m.getD (s.getD i 0) 0
  let v := blakeG v 0 4 8 12 (mi 0) (mi 1)
  let v := blakeG v 1 5 9 13 (mi 2) (mi 3)
  let v := blakeG v 2 6 10 14 (mi 4) (mi 5)
  let v := blakeG v 3 7 11 15 (mi 6) (mi 7)
  let v := blakeG v 0 5 10 15 (mi 8) (mi 9)
  let v := blakeG v 1 6 11 12 (mi 10) (mi 11)
  let v := blakeG v 2 7 8 13 (mi 12) (mi 13)
  blakeG v 3 4 9 14 (mi 14) (mi 15)

/-- The eight-word BLAKE2b hash state. -/
structure BlakeH where
  w0 : Nat
  w1 : Nat
  w2 : Nat
  w3 : Nat
  w4 : Nat
  w5 : Nat
  w6 : Nat
  w7 : Nat
deriving Repr

/-- Little-endian 64-bit word from the first eight bytes of a list. -/
def wordLE (l : List Nat) : Nat :=
  (l.take 8).foldr (fun b acc => b + 256 * acc) 0

/-- The sixteen little-endian message words of a 128-byte block. -/
def blakeBlockWords (block : List Nat) : List Nat :=
  (List.range 16).map (fun i => wordLE ((block.drop (8 * i)).take 8))

/-- BLAKE2b compression function F. -/
def blakeCompress (h : BlakeH) (block : List Nat) (t : Nat) (last : Bool) : BlakeH :=
  let m := blakeBlockWords block
  let v0 := [h.w0, h.w1, h.w2, h.w3, h.w4, h.w5, h.w6, h.w7] ++ blakeIV
  let v1 := (v0.set 12 (v0.getD 12 0 ^^^ (t % 18446744073709551616))).set 13
      (v0.getD 13 0 ^^^ (t >>> 64))
  let v2 := if last then v1.set 14 (v1.getD 14 0 ^^^ 0xffffffffffffffff) else v1
  let v := (List.range 12).foldl (blakeRound m) v2
  ⟨h.w0 ^^^ v.getD 0 0 ^^^ v.getD 8 0, h.w1 ^^^ v.getD 1 0 ^^^ v.getD 9 0,
   h.w2 ^^^ v.getD 2 0 ^^^ v.getD 10 0, h.w3 ^^^ v.getD 3 0 ^^^ v.getD 11 0,
   h.w4 ^^^ v.getD 4 0 ^^^ v.getD 12 0, h.w5 ^^^ v.getD 5 0 ^^^ v.getD 13 0,
   h.w6 ^^^ v.getD 6 0 ^^^ v.getD 14 0, h.w7 ^^^ v.getD 7 0 ^^^ v.getD 15 0⟩

/-- Initial BLAKE2b-512 state: the IV with the parameter word for digest
length 64, no key, fanout 1, depth 1 folded into the first word. -/
def blakeH0 : BlakeH :=
  ⟨0x6a09e667f3bcc908 ^^^ 0x01010040, 0xbb67ae8584caa73b, 0x3c6ef372fe94f82b,
   0xa54ff53a5f1d36f1, 0x510e527fade682d1, 0x9b05688c2b3e6c1f,
   0x1f83d9abfb41bd6b, 0x5be0cd19137e2179⟩

/-- Message blocks for BLAKE2b: 128-byte chunks, the last zero-padded; an
empty message is hashed as a single all-zero block. -/
def blakeBlocks (msg : List Nat) : List (List Nat) :=
  if msg = [] then [List.replicate 128 0]
  else (chunksAux 128 msg.length msg).map (fun b => b ++ List.replicate (128 - b.length) 0)

/-- Main BLAKE2b loop: compress each block, counting processed bytes; the
final block is compressed with the total message length and the final flag. -/
def blakeLoop (len : Nat) : List (List Nat) → Nat → BlakeH → BlakeH
  | [], _, h => h
  | [b], _, h => blakeCompress h b len true
  | b :: b2 :: rest, done, h =>
      blakeLoop len (b2 :: rest) (done + 128) (blakeCompress h b (done + 128) false)

/-- Little-endian bytes of a 64-bit word. -/
def le8 (w : Nat) : List Nat :=
  [w % 256, w >>> 8 % 256, w >>> 16 % 256, w >>> 24 % 256,
   w >>> 32 % 256, w >>> 40 % 256, w >>> 48 % 256, w >>> 56 % 256]

/-- BLAKE2b-512 digest of a byte sequence: sixty-four bytes. -/
def blake2b512 (msg : List Nat) : List Nat :=
  let h := blakeLoop msg.length (blakeBlocks msg) 0 blakeH0
  le8 h.w0 ++ le8 h.w1 ++ le8 h.w2 ++ le8 h.w3 ++ le8 h.w4 ++ le8 h.w5 ++ le8 h.w6 ++ le8 h.w7

/-- A BLAKE2b-512 digest always has exactly sixty-four bytes. -/
theorem blake2b512_length (msg : List Nat) : (blake2b512 msg).length = 64 := by
  simp [blake2b512, le8]

/-! Embedding of `src/watcher.rs` and the helpers it uses from
`src/main.rs`.  Directory states are association lists: an artifact
directory maps file names to tarball bytes, a cache directory maps entry
names to nodes, and a cache entry maps relative file names to contents.
The external tar+gzip extractor (`flate2`/`tar`) is passed in as a
function `unpack` from tarball bytes to the extracted file tree (or a
decoding error), mirroring `Archive::unpack`. -/

/-- Rust `str::ends_with`: the pattern is a byte suffix of the string. -/
def endsWithB (s pat : Bytes) : Bool :=
  decide (pat.length ≤ s.length) && decide (s.drop (s.length - pat.length) = pat)

/-- Byte form of the literal `".tar.gz"`. -/
def tarGzSuffix : Bytes := asciiBytes ".tar.gz"

/-- Fuel-driven core of Rust `str::trim_end_matches`: repeatedly strip the
`.tar.gz` suffix while it is present. -/
def trimTarGzAux : Nat → Bytes → Bytes
  | 0, s => s
  | fuel + 1, s =>
      if endsWithB s tarGzSuffix then
        trimTarGzAux fuel (s.take (s.length - tarGzSuffix.length))
      else s

/-- Rust `filename.trim_end_matches(".tar.gz")`: removes every trailing
repetition of the suffix. -/
def trimEndTarGz (s : Bytes) : Bytes := trimTarGzAux s.length s

/-- Embedding of `is_artifact_tarball` (`src/watcher.rs` lines 253 to 268):
for a filename ending in `.tar.gz`, the build ID is the trimmed name, or,
when a digest salt is configured, the lowercase hexadecimal SHA-256 digest
of the trimmed name, a colon, and the salt. -/
def is_artifact_tarball (filename : Bytes) (digest_salt : Option Bytes) : Option Bytes :=
  if endsWithB filename tarGzSuffix then
    let build_id := trimEndTarGz filename
    some (match digest_salt with
      | some salt => sha256hexBytes (build_id ++ asciiBytes ":" ++ salt)
      | none => build_id)
  else none

/-- Byte form of `CHECKSUM_FILENAME`, the literal `".__checksum"`. -/
def checksumName : Bytes := asciiBytes ".__checksum"

/-- Embedding of `get_cache_dir_checksum` (`src/main.rs` lines 139 to 143):
`fs::read` of the sentinel file inside a cache entry; a missing sentinel is
`ErrorKind::NotFound`. -/
def get_cache_dir_checksum (entries : List (Bytes × Bytes)) : Except Err Bytes :=
  match lookupA checksumName entries with
  | some b => .ok b
  | none => .error .notFound

/-- The 4096-byte buffered read loop of `get_tarball_checksum`, accumulating
hasher input until end of file. -/
def readChunksAcc : Nat → Bytes → Bytes → Bytes
  | 0, acc, _ => acc
  | fuel + 1, acc, rest =>
      if rest = [] then acc
      else readChunksAcc fuel (acc ++ rest.take 4096) (rest.drop 4096)

/-- Embedding of `get_tarball_checksum` (`src/watcher.rs` lines 22 to 37):
stream the tarball through BLAKE2b-512 in 4096-byte chunks. -/
def get_tarball_checksum (tarball : Bytes) : Except Err Bytes :=
  .ok (blake2b512 (readChunksAcc tarball.length [] tarball))

/-- The streamed bytes are the whole tarball. -/
theorem readChunksAcc_eq (fuel : Nat) :
    ∀ acc rest : Bytes, rest.length ≤ fuel → readChunksAcc fuel acc rest = acc ++ rest := by
  induction fuel with
  | zero =>
      intro acc rest h
      have : rest = [] := List.length_eq_zero.mp (Nat.le_zero.mp h)
      simp [readChunksAcc, this]
  | succ f ih =>
      intro acc rest h
      by_cases hr : rest = []
      · simp [readChunksAcc, hr]
      · have hlen : (rest.drop 4096).length ≤ f := by
          have h1 : 1 ≤ rest.length := by
            cases rest with
            | nil => exact absurd rfl hr
            | cons a l => simp
          simp only [List.length_drop]
          omega
        simp only [readChunksAcc, if_neg hr]
        rw [ih _ _ hlen, List.append_assoc, List.take_append_drop]

/-- Streaming the file in chunks hashes exactly the file's bytes. -/
theorem get_tarball_checksum_eq (tarball : Bytes) :
    get_tarball_checksum tarball = .ok (blake2b512 tarball) := by
  simp [get_tarball_checksum, readChunksAcc_eq tarball.length [] tarball (Nat.le_refl _)]

/-- Filesystem operations performed by `extract_to`, in program order. -/
inductive FsOp
  | removeDirAll
  | createDirAll
  | openTarball
  | writeEntry (name content : Bytes)
  | readTarball
  | writeFile (name content : Bytes)
deriving DecidableEq, Repr

/-- Embedding of `extract_to` (`src/watcher.rs` lines 53 to 65): recreate
the cache entry, unpack the tarball into it, then write the tarball's
checksum to the sentinel file as the final step.  Returns the resulting
entry contents together with the trace of filesystem operations. -/
def extract_to (unpack : Bytes → Except Err (List (Bytes × Bytes))) (tarball : Bytes) :
    Except Err (List (Bytes × Bytes) × List FsOp) := do
  let tree ← unpack tarball
  let ck ← get_tarball_checksum tarball
  .ok (insertA checksumName ck (tree.foldl (fun acc e => insertA e.1 e.2 acc) []),
    [FsOp.removeDirAll, FsOp.createDirAll, FsOp.openTarball] ++
      tree.map (fun e => FsOp.writeEntry e.1 e.2) ++
      [FsOp.readTarball, FsOp.writeFile checksumName ck])

/-- The effect of `extract_to` on the surrounding cache directory state: the
target entry is removed and recreated from the tarball alone. -/
def extract_to_fs (unpack : Bytes → Except Err (List (Bytes × Bytes))) (tarball dirName : Bytes)
    (fs : List (Bytes × List (Bytes × Bytes))) :
    Except Err (List (Bytes × List (Bytes × Bytes))) := do
  let r ← extract_to unpack tarball
  .ok (insertA dirName r.1 fs)

/-- A direct child of the cache directory: either a stray file or a cache
entry directory. -/
inductive CacheNode
  | file (content : Bytes)
  | dir (entries : List (Bytes × Bytes))
deriving DecidableEq, Repr

/-- Embedding of `sync_cache` (`src/watcher.rs` lines 80 to 133).  Collect
build IDs of artifact tarballs; collect cache subdirectories, deleting any
stray plain files; re-extract each tarball whose cache entry is missing or
whose sentinel differs from the tarball checksum; finally remove cache
entries without a matching tarball.  Returns the resulting cache directory
as a map from entry name to entry contents. -/
def sync_cache (digest_salt : Option Bytes)
    (unpack : Bytes → Except Err (List (Bytes × Bytes)))
    (artifact_dir : List (Bytes × Bytes)) (cache_dir : List (Bytes × CacheNode)) :
    Except Err (List (Bytes × List (Bytes × Bytes))) := do
  let tarballs := artifact_dir.foldl (fun m e =>
      match is_artifact_tarball e.1 digest_salt with
      | some build_id => insertA build_id e.2 m
      | none => m) []
  let cache_dirs := cache_dir.foldl (fun m e =>
      match e.2 with
      | CacheNode.dir entries => insertA e.1 entries m
      | CacheNode.file _ => m) []
  let st ← tarballs.foldlM (fun st e => do
      match lookupA e.1 cache_dirs with
      | some entries => do
          let tc ← get_tarball_checksum e.2
          let cc ← get_cache_dir_checksum entries
          if tc = cc then .ok st
          else do
            let r ← extract_to unpack e.2
            .ok (insertA e.1 r.1 st)
      | none => do
          let r ← extract_to unpack e.2
          .ok (insertA e.1 r.1 st)) cache_dirs
  .ok (cache_dirs.foldl (fun st e =>
      if (lookupA e.1 tarballs).isSome then st else removeA e.1 st) st)

/-! Embedding of `src/backend/selfhosted.rs`. -/

/-- Body of an HTTP response (`hyper_staticfile::Body`): empty or a
resolved file stream. -/
inductive HttpBody
  | empty
  | fileStream (content : Bytes)
deriving DecidableEq, Repr

/-- An HTTP response: status code, header list, body. -/
structure HttpResponse where
  status : Nat
  headers : List (String × String)
  body : HttpBody
deriving DecidableEq, Repr

/-- Header insertion as done by `HeaderMap::insert`: replace an existing
header of the same name, otherwise add it. -/
def insertHeader (name value : String) : List (String × String) → List (String × String)
  | [] => [(name, value)]
  | (n, v) :: rest => if n = name then (name, value) :: rest else (n, v) :: insertHeader name value rest

/-- Embedding of `handle_request` (`src/backend/selfhosted.rs` lines 21 to
56).  The static-file resolver is external; its outcome for the request is
passed in as `resolve` (an I/O error there propagates through the
question-mark operator). -/
def handle_request (path : String) (resolve : Except Err HttpResponse) : Except Err HttpResponse :=
  if path = "/health" then
    .ok ⟨200, [], HttpBody.empty⟩
  else if path.endsWith ".__checksum" then
    .ok ⟨404, [], HttpBody.empty⟩
  else do
    let response ← resolve
    if response.status = 200 then
      .ok { response with headers := insertHeader "Content-Disposition" "attachment" response.headers }
    else
      .ok response

/-- A build event as produced by the watcher (`BuildEvent` in
`src/main.rs`). -/
inductive BuildEvent
  | create (build : Bytes)
  | update (build : Bytes)
  | delete (build : Bytes)
deriving DecidableEq, Repr

/-- The bounded watcher-to-backend channel created by `watch_dir`
(`channel(32)` in `src/watcher.rs` line 144). -/
structure Channel where
  queue : List BuildEvent
  closed : Bool
deriving DecidableEq, Repr

/-- The capacity passed to `channel` in `watch_dir`. -/
def channelCapacity : Nat := 32

/-- A `blocking_send` on a bounded tokio channel blocks while the buffer
holds `capacity` messages and no receive happens. -/
def sendWouldBlock (c : Channel) : Bool := channelCapacity ≤ c.queue.length

/-- Loop body outcome of `SelfhostedBackend::run` (`src/backend/selfhosted.rs`
lines 70 to 95) after the listener is bound: each iteration awaits
`listener.accept()` and spawns a connection task; the receiver `_rx` is
never read, so the channel is left untouched; an accept error returns from
`run` through the question-mark operator, and the loop has no other exit.
`accepts k` is the outcome of the `k`-th accept; the result is the channel
state after `fuel` iterations paired with `none` while the loop is still
running, or `some` the value `run` returned. -/
def selfhosted_run_loop (accepts : Nat → Except Err Unit) :
    Nat → Nat → Channel → Channel × Option (Except Err Unit)
  | _, 0, ch => (ch, none)
  | k, fuel + 1, ch =>
      match accepts k with
      | .ok _ => selfhosted_run_loop accepts (k + 1) fuel ch
      | .error e => (ch, some (.error e))

/-- The selfhosted accept loop never consumes from the event channel. -/
theorem selfhosted_run_loop_channel_eq (accepts : Nat → Except Err Unit) :
    ∀ (fuel k : Nat) (ch : Channel), (selfhosted_run_loop accepts k fuel ch).1 = ch := by
  intro fuel
  induction fuel with
  | zero => intro k ch; rfl
  | succ f ih =>
      intro k ch
      cases h : accepts k with
      | ok v => simp [selfhosted_run_loop, h, ih]
      | error e => simp [selfhosted_run_loop, h]

/-- The selfhosted accept loop never terminates with `Ok`. -/
theorem selfhosted_run_loop_never_ok (accepts : Nat → Except Err Unit) :
    ∀ (fuel k : Nat) (ch : Channel),
      (selfhosted_run_loop accepts k fuel ch).2 ≠ some (.ok ()) := by
  intro fuel
  induction fuel with
  | zero => intro k ch; simp [selfhosted_run_loop]
  | succ f ih =>
      intro k ch
      cases h : accepts k with
      | ok v => simpa [selfhosted_run_loop, h] using ih (k + 1) ch
      | error e => simp [selfhosted_run_loop, h]

/-! Embedding of `src/backend/s3.rs`.  Remote calls are represented by the
actions the backend issues; list responses and object bodies arrive as
parameters standing for the store's replies. -/

/-- The path-prefix normalization performed by `S3Backend::new`
(`src/backend/s3.rs` lines 29 to 40): strip leading slashes, then force a
non-empty result to end with a slash.  The source value `path_prefix` is a
Rust string, modelled as a character list. -/
def normalize_path_pre (s : List Char) : List Char :=
  let t := s.dropWhile (fun c => c == '/')
  if t ≠ [] ∧ t.getLast? ≠ some '/' then t ++ ['/'] else t

/-- Requests issued against the object store and the CDN. -/
inductive S3Action
  | listObjectsV2 (pre : Bytes)
  | putObject (key : Bytes)
  | deleteObjects (keys : List Bytes)
  | getObject (key : Bytes)
  | createInvalidation (path : Bytes)
deriving DecidableEq, Repr

/-- Embedding of `delete_bucket_dir` (`src/backend/s3.rs` lines 201 to 246)
as the list of store requests it issues: one `ListObjectsV2` with the
build's key namespace, and, only when that single response holds at least
one key, one batch `DeleteObjects` for exactly those keys.  `listObjects`
stands for the store's reply to a listing request. -/
def delete_bucket_dir (path_pre : Bytes) (listObjects : Bytes → List Bytes)
    (build : Bytes) : List S3Action :=
  let pre := path_pre ++ build ++ asciiBytes "/"
  let obj_keys := listObjects pre
  if obj_keys = [] then [S3Action.listObjectsV2 pre]
  else [S3Action.listObjectsV2 pre, S3Action.deleteObjects obj_keys]

/-- Embedding of `upload_cache_dir` (`src/backend/s3.rs` lines 172 to 198):
put one object per regular file of the build's cache entry, keyed by the
path prefix, the build ID, and the file's relative path. -/
def upload_cache_dir (path_pre : Bytes) (entries : List (Bytes × Bytes)) (build : Bytes) :
    List S3Action :=
  entries.map (fun e => S3Action.putObject (path_pre ++ build ++ asciiBytes "/" ++ e.1))

/-- Embedding of `create_invalidation` (`src/backend/s3.rs` lines 250 to
276): one CDN invalidation for the build's path pattern when a CloudFront
distribution is configured, nothing otherwise. -/
def create_invalidation (has_cloudfront : Bool) (path_pre build : Bytes) : List S3Action :=
  if has_cloudfront then
    [S3Action.createInvalidation (asciiBytes "/" ++ path_pre ++ build ++ asciiBytes "*")]
  else []

/-- Embedding of `get_bucket_dir_checksum` (`src/backend/s3.rs` lines 279
to 295).  `send_result` is the outcome of the `GetObject` send; its payload
is the outcome of collecting the body stream.  Any send failure yields
`Ok(None)`; a body-collection failure propagates. -/
def get_bucket_dir_checksum (send_result : Except Err (Except Err Bytes)) :
    Except Err (Option Bytes) :=
  match send_result with
  | .ok body =>
      match body with
      | .ok bs => .ok (some bs)
      | .error e => .error e
  | .error _ => .ok none

/-- Embedding of one iteration of the first loop of `S3Backend::synchronize`
(`src/backend/s3.rs` lines 355 to 378), for a local build `build` with
cache-entry contents `entries`.  `in_bucket` says whether the bucket
listing contained the build; `send_result` is the store's reply to the
sentinel `GetObject`.  Returns the store requests issued for this build. -/
def synchronize_local_build (has_cloudfront : Bool) (path_pre : Bytes)
    (listObjects : Bytes → List Bytes) (send_result : Except Err (Except Err Bytes))
    (build : Bytes) (entries : List (Bytes × Bytes)) (in_bucket : Bool) :
    Except Err (List S3Action) :=
  if in_bucket then do
    let getOps := [S3Action.getObject (path_pre ++ build ++ asciiBytes "/" ++ checksumName)]
    let redo := getOps ++ delete_bucket_dir path_pre listObjects build
      ++ upload_cache_dir path_pre entries build
      ++ create_invalidation has_cloudfront path_pre build
    let bucket_checksum ← get_bucket_dir_checksum send_result
    match bucket_checksum with
    | some bc => do
        let lc ← get_cache_dir_checksum entries
        if bc = lc then .ok getOps else .ok redo
    | none => .ok redo
  else
    .ok (upload_cache_dir path_pre entries build)

/-- Per-event dispatch of `S3Backend::run` (`src/backend/s3.rs` lines 79 to
101), as the store requests issued for one received event. -/
def s3_handle_event (has_cloudfront : Bool) (path_pre : Bytes)
    (listObjects : Bytes → List Bytes) (cacheEntries : Bytes → List (Bytes × Bytes)) :
    BuildEvent → List S3Action
  | BuildEvent.create build => upload_cache_dir path_pre (cacheEntries build) build
  | BuildEvent.update build =>
      delete_bucket_dir path_pre listObjects build
        ++ upload_cache_dir path_pre (cacheEntries build) build
        ++ create_invalidation has_cloudfront path_pre build
  | BuildEvent.delete build =>
      delete_bucket_dir path_pre listObjects build
        ++ create_invalidation has_cloudfront path_pre build

/-- The `while let Some(event) = rx.recv().await` loop of `S3Backend::run`:
process the events the channel will deliver, in order; when the channel is
closed and drained, `recv` returns `None` and the loop falls through to
`Ok(())`.  `handle` is the body of the loop; its error exits through the
question-mark operator. -/
def s3_run_loop (handle : BuildEvent → Except Err Unit) : List BuildEvent → Except Err Unit
  | [] => .ok ()
  | e :: rest => do
      let _ ← handle e
      s3_run_loop handle rest

/-! Claim theorems. -/

/-- A well-formed empty tarball: gzip+tar decoding succeeds and yields an
empty file tree. -/
def unpackEmptyTar : Bytes → Except Err (List (Bytes × Bytes)) := fun _ => .ok []

/-- C1: the claim says a pre-existing cache entry whose sentinel file is
missing is re-extracted rather than causing `sync_cache` to fail.  The code
disagrees: with a valid tarball `b.tar.gz` and a cache entry `b/` that has
no `.__checksum` file (exactly the state a crash during extraction leaves
behind), `get_cache_dir_checksum` returns a NotFound error which the
question-mark operator on line 115 of `src/watcher.rs` propagates, so the
whole call returns an error instead of re-extracting. -/
theorem c1_sync_cache_fails_on_missing_sentinel :
    sync_cache none unpackEmptyTar [(asciiBytes "b.tar.gz", [])]
      [(asciiBytes "b", CacheNode.dir [])] = .error Err.notFound := rfl

/-- C2 counterexample: the claim says every event sent on the channel is
received by the selfhosted backend.  In the code the receiver `_rx` is
never read: starting from a channel holding one event, no number of
iterations of the accept loop ever empties the queue, so the event is
never received. -/
theorem c2_counterexample_event_never_received :
    ¬ ∃ fuel : Nat, (selfhosted_run_loop (fun _ => .ok ()) 0 fuel
        ⟨[BuildEvent.create (asciiBytes "b1")], false⟩).1.queue = [] := by
  rintro ⟨fuel, h⟩
  rw [selfhosted_run_loop_channel_eq] at h
  simp at h

/-- C2 (amended): `SelfhostedBackend::run` never reads from the event
channel (the receiver is held but unused), so the channel state is
unchanged by any number of loop iterations; consequently once
`channelCapacity` events are pending, the watcher's blocking send stays
blocked for as long as the backend runs, rather than the channel being
drained. -/
theorem c2_selfhosted_never_drains (accepts : Nat → Except Err Unit) (fuel k : Nat)
    (ch : Channel) :
    (selfhosted_run_loop accepts k fuel ch).1 = ch ∧
    (sendWouldBlock ch = true →
      sendWouldBlock (selfhosted_run_loop accepts k fuel ch).1 = true) := by
  refine ⟨selfhosted_run_loop_channel_eq accepts fuel k ch, fun h => ?_⟩
  rw [selfhosted_run_loop_channel_eq]
  exact h

/-- Witness for C2 (amended): a concrete full channel stays full across
iterations of the selfhosted accept loop. -/
theorem c2_selfhosted_never_drains_witness :
    sendWouldBlock ⟨List.replicate 32 (BuildEvent.create (asciiBytes "b1")), false⟩ = true ∧
    sendWouldBlock (selfhosted_run_loop (fun _ => .ok ()) 0 5
      ⟨List.replicate 32 (BuildEvent.create (asciiBytes "b1")), false⟩).1 = true :=
  ⟨by decide,
   (c2_selfhosted_never_drains (fun _ => .ok ()) 5 0
     ⟨List.replicate 32 (BuildEvent.create (asciiBytes "b1")), false⟩).2 (by decide)⟩

/-- C7 counterexample: the claim says both backends' run loops return Ok
when the channel is closed and drained.  For the selfhosted backend this is
false: even with the channel closed and empty, no number of iterations of
its accept loop produces the return value Ok. -/
theorem c7_counterexample_selfhosted_never_ok :
    ¬ ∃ fuel : Nat,
      (selfhosted_run_loop (fun _ => .ok ()) 0 fuel ⟨[], true⟩).2 = some (.ok ()) := by
  rintro ⟨fuel, h⟩
  exact selfhosted_run_loop_never_ok (fun _ => .ok ()) fuel 0 ⟨[], true⟩ h

/-- C7 (amended): when the channel is closed and all events have been
consumed, `S3Backend::run`'s event loop returns Ok; `SelfhostedBackend::run`
however never returns Ok, whatever the channel state: its accept loop
either keeps running or exits with an error. -/
theorem c7_event_loop_exit (handle : BuildEvent → Except Err Unit)
    (accepts : Nat → Except Err Unit) (fuel k : Nat) (ch : Channel) :
    s3_run_loop handle [] = .ok () ∧
    (selfhosted_run_loop accepts k fuel ch).2 ≠ some (.ok ()) :=
  ⟨rfl, selfhosted_run_loop_never_ok accepts fuel k ch⟩

/-- C8: extracting the same unchanged tarball to the same directory twice
in succession leaves exactly the final on-disk state of a single
extraction: `extract_to` first removes and recreates the target entry, so
its result is determined by the tarball alone, and re-inserting the same
entry is the identity. -/
theorem c8_extract_to_idempotent (unpack : Bytes → Except Err (List (Bytes × Bytes)))
    (tarball dirName : Bytes) (fs : List (Bytes × List (Bytes × Bytes))) :
    (extract_to_fs unpack tarball dirName fs >>= extract_to_fs unpack tarball dirName)
      = extract_to_fs unpack tarball dirName fs := by
  cases h : extract_to unpack tarball with
  | error e => simp [extract_to_fs, h, Bind.bind, Except.bind]
  | ok r => simp [extract_to_fs, h, Bind.bind, Except.bind, insertA_insertA_self]

/-- Trimming strips trailing `.tar.gz` repetitions until none remains. -/
theorem trimTarGzAux_not_endsWith :
    ∀ (fuel : Nat) (s : Bytes), s.length ≤ fuel →
      endsWithB (trimTarGzAux fuel s) tarGzSuffix = false := by
  intro fuel
  induction fuel with
  | zero =>
      intro s h
      have hs : s = [] := List.length_eq_zero.mp (Nat.le_zero.mp h)
      subst hs
      decide
  | succ f ih =>
      intro s h
      by_cases he : endsWithB s tarGzSuffix = true
      · have h7 : tarGzSuffix.length ≤ s.length := by
          have := (Bool.and_eq_true _ _).mp he |>.1
          exact of_decide_eq_true this
        have hlen : (s.take (s.length - tarGzSuffix.length)).length ≤ f := by
          have h1 : (1 : Nat) ≤ tarGzSuffix.length := by decide
          simp only [List.length_take]
          omega
        simp only [trimTarGzAux, if_pos he]
        exact ih _ hlen
      · simp only [trimTarGzAux, if_neg he]
        exact Bool.not_eq_true _ |>.mp he

/-- The result of `trim_end_matches(".tar.gz")` never still ends in the
suffix. -/
theorem trimEndTarGz_not_endsWith (s : Bytes) :
    endsWithB (trimEndTarGz s) tarGzSuffix = false :=
  trimTarGzAux_not_endsWith s.length s (Nat.le_refl _)

/-- A SHA-256 digest has exactly thirty-two bytes. -/
theorem sha256_length (msg : List Nat) : (sha256 msg).length = 32 := by
  simp [sha256, be4]

/-- Hexadecimal rendering doubles the byte count. -/
theorem hexOfBytes_length (l : List Nat) : (hexOfBytes l).length = 2 * l.length := by
  induction l with
  | nil => rfl
  | cons b rest ih => simp [hexOfBytes, ih]; ring

/-- A lowercase hexadecimal SHA-256 digest has sixty-four characters. -/
theorem sha256hexBytes_length (msg : Bytes) : (sha256hexBytes msg).length = 64 := by
  rw [sha256hexBytes, hexOfBytes_length, sha256_length]

/-- Every emitted hexadecimal digit is a lowercase hexadecimal character. -/
theorem hexDigitByte_mem (n : Nat) : hexDigitByte n ∈ hexLowerBytes := by
  unfold hexDigitByte
  rcases Nat.lt_or_ge n 16 with h | h
  · interval_cases n <;> decide
  · have hlen : hexLowerBytes.length ≤ n := by
      have : hexLowerBytes.length = 16 := by decide
      omega
    rw [List.getD_eq_default _ _ hlen]
    decide

/-- Every byte of a hexadecimal rendering is a lowercase hexadecimal
character. -/
theorem hexOfBytes_mem (l : List Nat) : ∀ b ∈ hexOfBytes l, b ∈ hexLowerBytes := by
  induction l with
  | nil => simp [hexOfBytes]
  | cons x rest ih =>
      intro b hb
      simp only [hexOfBytes, List.mem_cons] at hb
      rcases hb with h | h | h
      · rw [h]; exact hexDigitByte_mem _
      · rw [h]; exact hexDigitByte_mem _
      · exact ih b h

/-- C3 counterexample: the claim says the build ID is the filename with
exactly one trailing `.tar.gz` suffix removed, which for
`a.tar.gz.tar.gz` would be `a.tar.gz`.  The code uses Rust
`trim_end_matches`, which removes every trailing repetition of the suffix,
producing `a`. -/
theorem c3_counterexample_trim_removes_all :
    is_artifact_tarball (asciiBytes "a.tar.gz.tar.gz") none = some (asciiBytes "a") ∧
    asciiBytes "a" ≠ asciiBytes "a.tar.gz" := by
  constructor
  · decide
  · decide

/-- C3 (amended): for a filename ending in `.tar.gz`, `is_artifact_tarball`
returns Some of the build ID, where with no salt the build ID is the
filename with every trailing repetition of `.tar.gz` removed (possibly the
empty string, as for the filename `.tar.gz`), and with a salt it is the
64-character lowercase hexadecimal SHA-256 digest of the trimmed name, a
colon, and the salt; for any other filename it returns None. -/
theorem c3_is_artifact_tarball_characterization (filename : Bytes) :
    (endsWithB filename tarGzSuffix = false →
      ∀ digest_salt, is_artifact_tarball filename digest_salt = none) ∧
    (endsWithB filename tarGzSuffix = true →
      (is_artifact_tarball filename none = some (trimEndTarGz filename) ∧
        endsWithB (trimEndTarGz filename) tarGzSuffix = false) ∧
      ∀ salt,
        is_artifact_tarball filename (some salt)
            = some (sha256hexBytes (trimEndTarGz filename ++ asciiBytes ":" ++ salt)) ∧
        (sha256hexBytes (trimEndTarGz filename ++ asciiBytes ":" ++ salt)).length = 64 ∧
        ∀ b ∈ sha256hexBytes (trimEndTarGz filename ++ asciiBytes ":" ++ salt),
          b ∈ hexLowerBytes) := by
  constructor
  · intro h digest_salt
    simp [is_artifact_tarball, h]
  · intro h
    refine ⟨⟨by simp [is_artifact_tarball, h], trimEndTarGz_not_endsWith filename⟩, ?_⟩
    intro salt
    exact ⟨by simp [is_artifact_tarball, h], sha256hexBytes_length _, hexOfBytes_mem _⟩

/-- Witness for C3 (amended) at the salted scenario of the specification:
filename `b1.tar.gz` with salt `S`. -/
theorem c3_characterization_witness :
    endsWithB (asciiBytes "b1.tar.gz") tarGzSuffix = true ∧
    ((is_artifact_tarball (asciiBytes "b1.tar.gz") none
        = some (trimEndTarGz (asciiBytes "b1.tar.gz")) ∧
      endsWithB (trimEndTarGz (asciiBytes "b1.tar.gz")) tarGzSuffix = false) ∧
      ∀ salt,
        is_artifact_tarball (asciiBytes "b1.tar.gz") (some salt)
            = some (sha256hexBytes (trimEndTarGz (asciiBytes "b1.tar.gz") ++ asciiBytes ":" ++ salt)) ∧
        (sha256hexBytes (trimEndTarGz (asciiBytes "b1.tar.gz") ++ asciiBytes ":" ++ salt)).length = 64 ∧
        ∀ b ∈ sha256hexBytes (trimEndTarGz (asciiBytes "b1.tar.gz") ++ asciiBytes ":" ++ salt),
          b ∈ hexLowerBytes) :=
  ⟨by decide, (c3_is_artifact_tarball_characterization (asciiBytes "b1.tar.gz")).2 (by decide)⟩

/-- Successful extraction, unfolded: the resulting entry contents and the
operation trace. -/
theorem extract_to_eq (unpack : Bytes → Except Err (List (Bytes × Bytes)))
    (tarball : Bytes) (tree : List (Bytes × Bytes)) (h : unpack tarball = .ok tree) :
    extract_to unpack tarball = .ok
      (insertA checksumName (blake2b512 tarball)
        (tree.foldl (fun acc e => insertA e.1 e.2 acc) []),
       [FsOp.removeDirAll, FsOp.createDirAll, FsOp.openTarball] ++
         tree.map (fun e => FsOp.writeEntry e.1 e.2) ++
         [FsOp.readTarball, FsOp.writeFile checksumName (blake2b512 tarball)]) := by
  unfold extract_to
  rw [h, get_tarball_checksum_eq]
  rfl

/-- A list ending in a given element has it as its last. -/
theorem getLast?_append_single {α : Type} (l : List α) (a : α) :
    (l ++ [a]).getLast? = some a := by
  induction l with
  | nil => rfl
  | cons x xs ih =>
      rw [List.cons_append]
      cases hx : xs ++ [a] with
      | nil => exact absurd hx (by simp)
      | cons y ys => rw [List.getLast?_cons_cons, ← hx, ih]

/-- C4: after every successful `extract_to`, the cache entry holds a
sentinel file `.__checksum` whose contents are exactly the 64-byte raw
BLAKE2b-512 digest of the tarball's bytes, read afresh from the tarball,
and the sentinel write is the final operation of the extraction. -/
theorem c4_extract_to_sentinel (unpack : Bytes → Except Err (List (Bytes × Bytes)))
    (tarball : Bytes) (tree : List (Bytes × Bytes)) (h : unpack tarball = .ok tree) :
    ∃ entries ops, extract_to unpack tarball = .ok (entries, ops) ∧
      lookupA checksumName entries = some (blake2b512 tarball) ∧
      (blake2b512 tarball).length = 64 ∧
      ops.getLast? = some (FsOp.writeFile checksumName (blake2b512 tarball)) := by
  refine ⟨_, _, extract_to_eq unpack tarball tree h, lookupA_insertA_self _ _ _,
    blake2b512_length tarball, ?_⟩
  rw [show [FsOp.readTarball, FsOp.writeFile checksumName (blake2b512 tarball)]
      = [FsOp.readTarball] ++ [FsOp.writeFile checksumName (blake2b512 tarball)] from rfl,
    ← List.append_assoc]
  exact getLast?_append_single _ _

/-- Witness for C4 at a concrete successful extraction: the empty tarball
and a decoder that yields the empty tree. -/
theorem c4_extract_to_sentinel_witness :
    unpackEmptyTar [] = .ok [] ∧
    ∃ entries ops, extract_to unpackEmptyTar [] = .ok (entries, ops) ∧
      lookupA checksumName entries = some (blake2b512 []) ∧
      (blake2b512 []).length = 64 ∧
      ops.getLast? = some (FsOp.writeFile checksumName (blake2b512 [])) :=
  ⟨rfl, c4_extract_to_sentinel unpackEmptyTar [] [] rfl⟩

/-- C5: the selfhosted request handler returns 200 with an empty body for
the exact path `/health`; 404 with an empty body for any other path ending
in `.__checksum`; and otherwise forwards the static-file resolver's
response, adding the header `Content-Disposition: attachment` exactly when
the resolver's status is 200 and passing every other status through
unmodified (resolver errors propagate). -/
theorem c5_handle_request_cases (path : String) (resolve : Except Err HttpResponse) :
    (path = "/health" → handle_request path resolve = .ok ⟨200, [], HttpBody.empty⟩) ∧
    (path ≠ "/health" → path.endsWith ".__checksum" = true →
      handle_request path resolve = .ok ⟨404, [], HttpBody.empty⟩) ∧
    (path ≠ "/health" → path.endsWith ".__checksum" = false →
      (∀ e, resolve = .error e → handle_request path resolve = .error e) ∧
      ∀ r, resolve = .ok r →
        (r.status = 200 → handle_request path resolve =
          .ok { r with headers := insertHeader "Content-Disposition" "attachment" r.headers }) ∧
        (r.status ≠ 200 → handle_request path resolve = .ok r)) := by
  refine ⟨fun h1 => ?_, fun h1 h2 => ?_, fun h1 h2 => ⟨fun e he => ?_, fun r hr => ⟨fun hs => ?_, fun hs => ?_⟩⟩⟩
  · simp [handle_request, h1]
  · simp [handle_request, h1, h2]
  · simp [handle_request, h1, h2, he, Bind.bind, Except.bind]
  · simp [handle_request, h1, h2, hr, hs, Bind.bind, Except.bind]
  · simp [handle_request, h1, h2, hr, hs, Bind.bind, Except.bind]

/-- Witness for C5 at the health endpoint. -/
theorem c5_handle_request_witness :
    handle_request "/health" (.ok ⟨200, [], HttpBody.empty⟩) = .ok ⟨200, [], HttpBody.empty⟩ :=
  (c5_handle_request_cases "/health" (.ok ⟨200, [], HttpBody.empty⟩)).1 rfl

/-- After dropping leading slashes, the head is not a slash. -/
theorem dropWhile_slash_head (s : List Char) (c : Char)
    (h : (s.dropWhile (fun c => c == '/')).head? = some c) : c ≠ '/' := by
  induction s with
  | nil => simp [List.dropWhile] at h
  | cons a l ih =>
      rw [List.dropWhile_cons] at h
      by_cases ha : a = '/'
      · rw [if_pos (by simp [ha])] at h
        exact ih h
      · rw [if_neg (by simp [ha])] at h
        simp only [List.head?_cons, Option.some.injEq] at h
        rw [← h]
        exact ha

/-- C6: the path-prefix normalization of `S3Backend::new` strips all
leading slashes, forces a non-empty result to end with a slash, and maps
the five specified examples as stated. -/
theorem c6_normalize_path_pre (s : List Char) :
    (normalize_path_pre [] = [] ∧
     normalize_path_pre ['/'] = [] ∧
     normalize_path_pre ['/', 'a'] = ['a', '/'] ∧
     normalize_path_pre ['a', '/'] = ['a', '/'] ∧
     normalize_path_pre ['a'] = ['a', '/']) ∧
    normalize_path_pre ('/' :: s) = normalize_path_pre s ∧
    (∀ c, (normalize_path_pre s).head? = some c → c ≠ '/') ∧
    (normalize_path_pre s ≠ [] → (normalize_path_pre s).getLast? = some '/') := by
  refine ⟨by decide, ?_, ?_, ?_⟩
  · simp [normalize_path_pre, List.dropWhile_cons]
  · intro c hc
    unfold normalize_path_pre at hc
    by_cases hcond : s.dropWhile (fun c => c == '/') ≠ [] ∧
        (s.dropWhile (fun c => c == '/')).getLast? ≠ some '/'
    · rw [if_pos hcond] at hc
      refine dropWhile_slash_head s c ?_
      cases hd : s.dropWhile (fun c => c == '/') with
      | nil => exact absurd hd hcond.1
      | cons x xs =>
          rw [hd] at hc
          simpa using hc
    · rw [if_neg hcond] at hc
      exact dropWhile_slash_head s c hc
  · intro hne
    unfold normalize_path_pre at hne ⊢
    by_cases hcond : s.dropWhile (fun c => c == '/') ≠ [] ∧
        (s.dropWhile (fun c => c == '/')).getLast? ≠ some '/'
    · rw [if_pos hcond]
      exact getLast?_append_single _ _
    · rw [if_neg hcond] at hne ⊢
      push_neg at hcond
      exact hcond hne

/-- Witness for C6 at the prefix consisting of one letter. -/
theorem c6_normalize_witness :
    normalize_path_pre ['a'] ≠ [] ∧ (normalize_path_pre ['a']).getLast? = some '/' :=
  ⟨by decide, (c6_normalize_path_pre ['a']).2.2.2 (by decide)⟩

/-- Recognizer for listing requests. -/
def isListObjectsV2 : S3Action → Bool
  | S3Action.listObjectsV2 _ => true
  | _ => false

/-- Recognizer for batch-delete requests. -/
def isDeleteObjects : S3Action → Bool
  | S3Action.deleteObjects _ => true
  | _ => false

/-- C9: `delete_bucket_dir` issues exactly one listing request, for the
prefix formed from the path prefix, the build ID, and a trailing slash;
when the single list response holds no keys it issues no batch delete, and
otherwise it issues exactly one batch delete whose object set is exactly
the keys of that response. -/
theorem c9_delete_bucket_dir (path_pre : Bytes) (listObjects : Bytes → List Bytes)
    (build : Bytes) :
    ((delete_bucket_dir path_pre listObjects build).filter isListObjectsV2
        = [S3Action.listObjectsV2 (path_pre ++ build ++ asciiBytes "/")]) ∧
    (listObjects (path_pre ++ build ++ asciiBytes "/") = [] →
      (delete_bucket_dir path_pre listObjects build).filter isDeleteObjects = []) ∧
    (listObjects (path_pre ++ build ++ asciiBytes "/") ≠ [] →
      (delete_bucket_dir path_pre listObjects build).filter isDeleteObjects
        = [S3Action.deleteObjects (listObjects (path_pre ++ build ++ asciiBytes "/"))]) := by
  refine ⟨?_, fun h => ?_, fun h => ?_⟩
  · unfold delete_bucket_dir
    by_cases h : listObjects (path_pre ++ build ++ asciiBytes "/") = []
    · rw [if_pos h]; rfl
    · rw [if_neg h]; rfl
  · unfold delete_bucket_dir
    rw [if_pos h]
    rfl
  · unfold delete_bucket_dir
    rw [if_neg h]
    rfl

/-- A store reply holding one key under the requested namespace. -/
def listObjectsOne : Bytes → List Bytes := fun pre => [pre ++ asciiBytes "x"]

/-- Witness for C9 at a store reply with exactly one key. -/
theorem c9_delete_bucket_dir_witness :
    listObjectsOne (asciiBytes "p/" ++ asciiBytes "b" ++ asciiBytes "/") ≠ [] ∧
    (delete_bucket_dir (asciiBytes "p/") listObjectsOne (asciiBytes "b")).filter isDeleteObjects
      = [S3Action.deleteObjects
          (listObjectsOne (asciiBytes "p/" ++ asciiBytes "b" ++ asciiBytes "/"))] :=
  ⟨by decide, (c9_delete_bucket_dir (asciiBytes "p/") listObjectsOne (asciiBytes "b")).2.2
    (by decide)⟩

/-- C10: a failed `GetObject` send is converted to `Ok(None)` whatever the
failure, and consequently, in the synchronize loop, a build present both
locally and remotely whose sentinel fetch fails is handled by
delete-then-reupload-then-invalidate (the invalidation happening when a
CDN distribution is configured) instead of the error aborting the
synchronization. -/
theorem c10_sentinel_fetch_failure (e : Err) (has_cloudfront : Bool) (path_pre : Bytes)
    (listObjects : Bytes → List Bytes) (build : Bytes) (entries : List (Bytes × Bytes)) :
    get_bucket_dir_checksum (.error e) = .ok none ∧
    synchronize_local_build has_cloudfront path_pre listObjects (.error e) build entries true
      = .ok ([S3Action.getObject (path_pre ++ build ++ asciiBytes "/" ++ checksumName)]
          ++ delete_bucket_dir path_pre listObjects build
          ++ upload_cache_dir path_pre entries build
          ++ create_invalidation has_cloudfront path_pre build) :=
  ⟨rfl, rfl⟩

/-- Witness for C7 (amended) at concrete loop parameters: the drained
closed channel for the object-store loop and three iterations of the
selfhosted accept loop. -/
theorem c7_event_loop_exit_witness :
    s3_run_loop (fun _ => .ok ()) [] = .ok () ∧
    (selfhosted_run_loop (fun _ => .ok ()) 0 3 ⟨[], true⟩).2 ≠ some (.ok ()) :=
  c7_event_loop_exit (fun _ => .ok ()) (fun _ => .ok ()) 3 0 ⟨[], true⟩
